import Mathlib

/-!
Verification of the video-adapted CLIP vision encoder defined in
`modules/model_bk.py` (classes `Adapter`, `ResidualAttentionBlock`,
`AggregationBlock`, `UnfoldTemporalWindows`, `Correlation_Module`,
`TemporalAggregationBlock`, `Transformer`, `VisionTransformer`,
`ModifiedResNet`, `CLIP`, and the loader `build_model`).

The embedding works at several levels, each faithful to the source:
* a value-level model of the transformer blocks, where a token sequence in
  LND layout is a `List` (over the sequence dimension) of functions from
  (batch index, feature index) to scalars; scalars are modelled by `ℚ`
  (exact field arithmetic in place of floating point), and the library
  transcendentals `torch.sigmoid` and `math.sqrt` are passed as abstract
  function parameters `sig` and `msqrt`, so every definition stays
  executable; library modules with opaque learned behaviour
  (`nn.MultiheadAttention`, `LayerNorm`) are abstract function fields of
  the structures, while everything defined in the repository (adapters,
  the bottleneck MLPs, the prefix construction, the correlation module,
  the unfold index arithmetic) is spelled out concretely;
* a shape-level model of `VisionTransformer.forward`, with the library
  shape rules (`Conv2d`, broadcasting, matmul) as explicit functions;
* a module-tree model of the constructors, recording for every submodule
  its class and for every `nn.Parameter` its `requires_grad` flag;
* an association-list model of the `state_dict` handled by `build_model`,
  mapping parameter names to tensor shapes;
* a model of the Python call protocol for `CLIP.forward`.
-/

namespace ModelBk

/-- A feature vector (the last tensor dimension) as a function to `ℚ`. -/
abbrev V := ℕ → ℚ

/-- One token position: a function of (batch index, feature index). -/
abbrev BD := ℕ → ℕ → ℚ

/-- A token sequence in LND layout: a list over the sequence dimension. -/
abbrev Seq := List BD

/-- A rank-3 tensor as an index function. -/
abbrev T3 := ℕ → ℕ → ℕ → ℚ

/-- A rank-4 tensor as an index function. -/
abbrev T4 := ℕ → ℕ → ℕ → ℕ → ℚ

/-- A rank-5 tensor as an index function. -/
abbrev T5 := ℕ → ℕ → ℕ → ℕ → ℕ → ℚ

/-- Model of `QuickGELU.forward` (model_bk.py line 167): `x * sigmoid(1.702 * x)`,
where `sig` models the library `torch.sigmoid`. -/
def quickGELU (sig : ℚ → ℚ) (t : ℚ) : ℚ := t * sig (1.702 * t)

/-- Model of `nn.Linear` on the feature dimension: `y j = (W x) j + b j`, where the
input has `din` features. -/
def linear (din : ℕ) (W : ℕ → ℕ → ℚ) (b : V) (x : V) : V :=
  fun j => (∑ i in Finset.range din, W j i * x i) + b j

/-- Lift a per-feature-vector map (such as a LayerNorm, which normalises
each position over the last dimension independently) to a token position. -/
def liftV (g : V → V) (bd : BD) : BD := fun n => g (fun d => bd n d)

/-- Apply a position-wise map to every token of a sequence. -/
def mapSeq (g : V → V) (s : Seq) : Seq := s.map (liftV g)

/-- Pointwise addition of two sequences of equal length (tensor `+`). -/
def addSeq (x y : Seq) : Seq :=
  List.zipWith (fun u v => fun n d => u n d + v n d) x y

/-- The token at position `l` of a sequence (zero outside the range). -/
def seqAt (s : Seq) (l : ℕ) : BD := s.getD l (fun _ _ => 0)

/-! Section: `Adapter` (model_bk.py lines 218-233) -/

/-- The `Adapter` module: a bottleneck MLP `c_in → QuickGELU → c_out` with
ratio `r = 1/4`, plus an optional skip connection.  `c_in` maps `d_model`
features to `int(d_model * 1/4)` features and `c_out` maps them back. -/
structure Adapter where
  d_model : ℕ
  c_in_w : ℕ → ℕ → ℚ
  c_in_b : V
  c_out_w : ℕ → ℕ → ℚ
  c_out_b : V
  skip_connect : Bool

/-- The `self.mlp` sequential of `Adapter`: `c_out (QuickGELU (c_in x))`.
The bottleneck width `int(d_model * 1/4)` is `d_model / 4` (floor). -/
def Adapter.mlpF (sig : ℚ → ℚ) (a : Adapter) (x : V) : V :=
  linear (a.d_model / 4) a.c_out_w a.c_out_b
    (fun i => quickGELU sig (linear a.d_model a.c_in_w a.c_in_b x i))

/-- Model of `Adapter.forward`: `mlp(x) + x` with a skip connection, else `mlp(x)`. -/
def Adapter.forward (sig : ℚ → ℚ) (a : Adapter) (x : V) : V :=
  if a.skip_connect then fun j => a.mlpF sig x j + x j else a.mlpF sig x

/-- An adapter applied to every token of a sequence (it acts on the last
dimension only). -/
def adapterSeq (sig : ℚ → ℚ) (a : Adapter) (s : Seq) : Seq :=
  s.map (liftV (a.forward sig))

/-! Section: `ResidualAttentionBlock` (model_bk.py lines 171-216) -/

/-- The `ResidualAttentionBlock` module.  `attn` is the library
`nn.MultiheadAttention`, taken abstractly as a map from (query, key, value)
sequences to an output sequence; `ln_1`/`ln_2` are the library `LayerNorm`,
abstract position-wise maps; the MLP weights, the two adapters and the
learned prefix embeddings (shape `(8, 1, d_model)`, so a function of the
prefix position and the feature index) are concrete.  The block is built
with `attn_mask=None` for the vision tower, and `checkpoint` is the
identity on values, so neither appears. -/
structure ResidualAttentionBlock where
  d_model : ℕ
  attn : Seq → Seq → Seq → Seq
  ln_1 : V → V
  mlp_c_fc_w : ℕ → ℕ → ℚ
  mlp_c_fc_b : V
  mlp_c_proj_w : ℕ → ℕ → ℚ
  mlp_c_proj_b : V
  ln_2 : V → V
  S_Adapter : Adapter
  MLP_Adapter : Adapter
  prefix_embedding_k : ℕ → V
  prefix_embedding_v : ℕ → V

/-- The block MLP `c_fc → QuickGELU → c_proj` (widths `d_model → 4·d_model
→ d_model`), per token position. -/
def ResidualAttentionBlock.mlpV (sig : ℚ → ℚ) (b : ResidualAttentionBlock) (x : V) : V :=
  linear (b.d_model * 4) b.mlp_c_proj_w b.mlp_c_proj_b
    (fun i => quickGELU sig (linear b.d_model b.mlp_c_fc_w b.mlp_c_fc_b x i))

/-- The block MLP applied to every token of a sequence. -/
def ResidualAttentionBlock.mlpSeq (sig : ℚ → ℚ) (b : ResidualAttentionBlock) (s : Seq) : Seq :=
  s.map (liftV (b.mlpV sig))

/-- Model of `p.repeat(1, N, 1)` for a prefix embedding of shape `(8, 1, d_model)`
(`self.prefix_length = 8`): a sequence of 8 tokens, each constant across
the batch dimension. -/
def prefixRep (p : ℕ → V) : Seq :=
  (List.range 8).map (fun s => fun _n d => p s d)

/-- Model of `ResidualAttentionBlock.attention` (line 197): queries are the input
tokens, keys and values are the input tokens concatenated (dim 0) with the
repeated prefix embeddings. -/
def ResidualAttentionBlock.attention (b : ResidualAttentionBlock) (x : Seq) : Seq :=
  b.attn x (x ++ prefixRep b.prefix_embedding_k) (x ++ prefixRep b.prefix_embedding_v)

/-- Model of `ResidualAttentionBlock.forward` (lines 200-212):
`x = x + attention(ln_1(x)) + S_Adapter(x)` then
`x = x + mlp(ln_2(x)) + MLP_Adapter(x)` (the `checkpoint` calls compute
the same values). -/
def ResidualAttentionBlock.forward (sig : ℚ → ℚ) (b : ResidualAttentionBlock) (x : Seq) : Seq :=
  let x1 := addSeq (addSeq x (b.attention (mapSeq b.ln_1 x))) (adapterSeq sig b.S_Adapter x)
  addSeq (addSeq x1 (b.mlpSeq sig (mapSeq b.ln_2 x1))) (adapterSeq sig b.MLP_Adapter x1)

/-! Section: The adapter zero-initialisation performed by `VisionTransformer.__init__`
(model_bk.py lines 390-406): for every module whose name contains
`S_Adapter` or `MLP_Adapter`, the `c_out` linear layer's weight and bias
are set to zero. -/

/-- Model of `nn.init.constant_(m2.weight, 0)` and `nn.init.constant_(m2.bias, 0)`
on the `c_out` layer of an adapter. -/
def Adapter.zeroCOut (a : Adapter) : Adapter :=
  { a with c_out_w := fun _ _ => 0, c_out_b := fun _ => 0 }

/-- The effect of the two initialisation loops on one residual block: both
of its adapters get a zeroed `c_out`. -/
def vitInitBlock (b : ResidualAttentionBlock) : ResidualAttentionBlock :=
  { b with S_Adapter := b.S_Adapter.zeroCOut, MLP_Adapter := b.MLP_Adapter.zeroCOut }

/-- The effect of the initialisation loops on all residual blocks of the
vision transformer. -/
def vitInitBlocks (bs : List ResidualAttentionBlock) : List ResidualAttentionBlock :=
  bs.map vitInitBlock

/-! Helper lemmas about sequences. -/

lemma length_addSeq (x y : Seq) : (addSeq x y).length = min x.length y.length := by
  simp [addSeq]

lemma addSeq_all_zero (X ys : Seq) (hy : ∀ y ∈ ys, y = fun _ _ => (0 : ℚ))
    (hl : X.length ≤ ys.length) : addSeq X ys = X := by
  induction X generalizing ys with
  | nil => simp [addSeq]
  | cons a X ih =>
    cases ys with
    | nil => simp at hl
    | cons b ys =>
      have hb : b = fun _ _ => (0 : ℚ) := hy b (by simp)
      have hrest : addSeq X ys = X :=
        ih ys (fun y hmem => hy y (by simp [hmem])) (by simpa using hl)
      subst hb
      have h1 : (fun n d => a n d + (fun _ _ => (0 : ℚ)) n d) = a := by
        funext n d; simp
      simp only [addSeq, List.zipWith_cons_cons] at hrest ⊢
      rw [h1, hrest]

lemma zeroCOut_forward (sig : ℚ → ℚ) (a : Adapter) (h : a.skip_connect = false) :
    ∀ v : V, a.zeroCOut.forward sig v = fun _ => 0 := by
  intro v
  funext j
  simp [Adapter.forward, h, Adapter.mlpF, Adapter.zeroCOut, linear]

lemma addSeq_adapterSeq_zero (sig : ℚ → ℚ) (a : Adapter)
    (ha : ∀ v : V, a.forward sig v = fun _ => 0)
    (X z : Seq) (hlen : X.length ≤ z.length) :
    addSeq X (adapterSeq sig a z) = X := by
  apply addSeq_all_zero
  · intro y hy
    obtain ⟨bd, _, rfl⟩ := List.mem_map.1 hy
    funext n d
    have := congrFun (ha (fun e => bd n e)) d
    simpa [liftV] using this
  · simpa [adapterSeq] using hlen

lemma forward_no_adapters (sig : ℚ → ℚ) (b : ResidualAttentionBlock)
    (hSf : ∀ v : V, b.S_Adapter.forward sig v = fun _ => 0)
    (hMf : ∀ v : V, b.MLP_Adapter.forward sig v = fun _ => 0) (x : Seq) :
    b.forward sig x =
      addSeq (addSeq x (b.attention (mapSeq b.ln_1 x)))
        (b.mlpSeq sig (mapSeq b.ln_2
          (addSeq x (b.attention (mapSeq b.ln_1 x))))) := by
  have h1 : addSeq (addSeq x (b.attention (mapSeq b.ln_1 x)))
        (adapterSeq sig b.S_Adapter x)
      = addSeq x (b.attention (mapSeq b.ln_1 x)) := by
    apply addSeq_adapterSeq_zero sig _ hSf
    rw [length_addSeq]; exact min_le_left _ _
  simp only [ResidualAttentionBlock.forward]
  rw [h1]
  exact addSeq_adapterSeq_zero sig _ hMf _ _
    (by rw [length_addSeq]; exact min_le_left _ _)

end ModelBk

namespace ModelBk

/-- C1: at `VisionTransformer` construction time (lines 390-406) the
`c_out` layer of every `S_Adapter` and every `MLP_Adapter` has weight and
bias set to zero; consequently each such adapter — built with
`skip_connect=False` (lines 184, 186) — maps every input to the zero
vector, and every freshly constructed `ResidualAttentionBlock` computes
`x + attention(ln_1(x))` followed by `x + mlp(ln_2(x))`: the adapter terms
contribute nothing. -/
theorem C1_zero_init_identity (sig : ℚ → ℚ) (bs : List ResidualAttentionBlock)
    (hS : ∀ b ∈ bs, b.S_Adapter.skip_connect = false)
    (hM : ∀ b ∈ bs, b.MLP_Adapter.skip_connect = false) :
    ∀ b ∈ vitInitBlocks bs,
      (∀ v : V, b.S_Adapter.forward sig v = fun _ => 0) ∧
      (∀ v : V, b.MLP_Adapter.forward sig v = fun _ => 0) ∧
      (∀ x : Seq,
        b.forward sig x =
          addSeq (addSeq x (b.attention (mapSeq b.ln_1 x)))
            (b.mlpSeq sig (mapSeq b.ln_2
              (addSeq x (b.attention (mapSeq b.ln_1 x)))))) := by
  intro b hb
  obtain ⟨b0, hb0, rfl⟩ := List.mem_map.1 hb
  have hSf : ∀ v : V, (vitInitBlock b0).S_Adapter.forward sig v = fun _ => 0 :=
    zeroCOut_forward sig b0.S_Adapter (hS b0 hb0)
  have hMf : ∀ v : V, (vitInitBlock b0).MLP_Adapter.forward sig v = fun _ => 0 :=
    zeroCOut_forward sig b0.MLP_Adapter (hM b0 hb0)
  exact ⟨hSf, hMf, forward_no_adapters sig _ hSf hMf⟩

/-- Concrete data used to instantiate the theorems: a residual block whose
adapters are built with `skip_connect=False` as in the source. -/
def adapterW : Adapter :=
  ⟨4, fun _ _ => 1, fun _ => 1, fun _ _ => 1, fun _ => 1, false⟩

/-- A concrete residual block (the abstract library fields are the
identity-like functions). -/
def blockW : ResidualAttentionBlock :=
  ⟨4, fun q _ _ => q, id, fun _ _ => 1, fun _ => 0, fun _ _ => 1, fun _ => 0,
   id, adapterW, adapterW, fun _ _ => 1, fun _ _ => 1⟩

/-- Witness for C1 at a concrete block. -/
theorem C1_zero_init_identity_witness :
    (∀ b ∈ [blockW], b.S_Adapter.skip_connect = false) ∧
    (∀ b ∈ [blockW], b.MLP_Adapter.skip_connect = false) ∧
    ∀ b ∈ vitInitBlocks [blockW],
      (∀ v : V, b.S_Adapter.forward (fun t => t) v = fun _ => 0) ∧
      (∀ v : V, b.MLP_Adapter.forward (fun t => t) v = fun _ => 0) ∧
      (∀ x : Seq,
        b.forward (fun t => t) x =
          addSeq (addSeq x (b.attention (mapSeq b.ln_1 x)))
            (b.mlpSeq (fun t => t) (mapSeq b.ln_2
              (addSeq x (b.attention (mapSeq b.ln_1 x)))))) :=
  have h1 : ∀ b ∈ [blockW], b.S_Adapter.skip_connect = false := by
    intro b hb; rw [List.mem_singleton] at hb; subst hb; rfl
  have h2 : ∀ b ∈ [blockW], b.MLP_Adapter.skip_connect = false := by
    intro b hb; rw [List.mem_singleton] at hb; subst hb; rfl
  ⟨h1, h2, C1_zero_init_identity (fun t => t) [blockW] h1 h2⟩

/-! Section: C8: the prefix-augmented attention of `ResidualAttentionBlock` -/

lemma seqAt_append_left (x y : Seq) (l : ℕ) (h : l < x.length) :
    seqAt (x ++ y) l = seqAt x l := by
  simp [seqAt, List.getD_eq_getElem?_getD, List.getElem?_append_left h]

lemma seqAt_append_right (x y : Seq) (s : ℕ) :
    seqAt (x ++ y) (x.length + s) = seqAt y s := by
  rw [seqAt, seqAt, List.getD_eq_getElem?_getD, List.getD_eq_getElem?_getD,
    List.getElem?_append_right (Nat.le_add_right _ _)]
  simp

lemma seqAt_prefixRep (p : ℕ → V) (s : ℕ) (h : s < 8) :
    seqAt (prefixRep p) s = fun _n d => p s d := by
  simp [seqAt, prefixRep, List.getD_eq_getElem?_getD, List.getElem?_range, h]

/-- C8: in every `ResidualAttentionBlock`, self-attention over an input of
length `L` uses keys and values of length `L + 8` — the input tokens
followed by the 8 learned prefix embeddings (`prefix_embedding_k` for
keys, `prefix_embedding_v` for values), repeated across the batch
dimension — while the queries are the `L` input tokens alone. -/
theorem C8_prefix_keys_values (b : ResidualAttentionBlock) (x : Seq) :
    b.attention x
      = b.attn x (x ++ prefixRep b.prefix_embedding_k)
          (x ++ prefixRep b.prefix_embedding_v) ∧
    (x ++ prefixRep b.prefix_embedding_k).length = x.length + 8 ∧
    (x ++ prefixRep b.prefix_embedding_v).length = x.length + 8 ∧
    (∀ l, l < x.length →
      seqAt (x ++ prefixRep b.prefix_embedding_k) l = seqAt x l ∧
      seqAt (x ++ prefixRep b.prefix_embedding_v) l = seqAt x l) ∧
    (∀ s, s < 8 →
      (seqAt (x ++ prefixRep b.prefix_embedding_k) (x.length + s)
        = fun _n d => b.prefix_embedding_k s d) ∧
      (seqAt (x ++ prefixRep b.prefix_embedding_v) (x.length + s)
        = fun _n d => b.prefix_embedding_v s d)) := by
  refine ⟨rfl, by simp [prefixRep], by simp [prefixRep], ?_, ?_⟩
  · intro l hl
    exact ⟨seqAt_append_left _ _ _ hl, seqAt_append_left _ _ _ hl⟩
  · intro s hs
    rw [seqAt_append_right, seqAt_append_right]
    exact ⟨seqAt_prefixRep _ _ hs, seqAt_prefixRep _ _ hs⟩

/-- A concrete one-token input sequence. -/
def xW : Seq := [fun _ _ => 1]

/-- Witness for C8 at a concrete block and a one-token input. -/
theorem C8_prefix_keys_values_witness :
    blockW.attention xW
      = blockW.attn xW (xW ++ prefixRep blockW.prefix_embedding_k)
          (xW ++ prefixRep blockW.prefix_embedding_v) ∧
    (xW ++ prefixRep blockW.prefix_embedding_k).length = xW.length + 8 ∧
    (xW ++ prefixRep blockW.prefix_embedding_v).length = xW.length + 8 ∧
    (∀ l, l < xW.length →
      seqAt (xW ++ prefixRep blockW.prefix_embedding_k) l = seqAt xW l ∧
      seqAt (xW ++ prefixRep blockW.prefix_embedding_v) l = seqAt xW l) ∧
    (∀ s, s < 8 →
      (seqAt (xW ++ prefixRep blockW.prefix_embedding_k) (xW.length + s)
        = fun _n d => blockW.prefix_embedding_k s d) ∧
      (seqAt (xW ++ prefixRep blockW.prefix_embedding_v) (xW.length + s)
        = fun _n d => blockW.prefix_embedding_v s d)) :=
  C8_prefix_keys_values blockW xW

/-! Section: `AggregationBlock` (model_bk.py lines 235-256) -/

/-- The `AggregationBlock` module: a multi-head attention (library,
abstract), two LayerNorms (library, abstract position-wise maps) and an
MLP whose hidden width is `d_model * 1` (lines 241-245). -/
structure AggregationBlock where
  d_model : ℕ
  attn : Seq → Seq → Seq → Seq
  ln_1 : V → V
  mlp_c_fc_w : ℕ → ℕ → ℚ
  mlp_c_fc_b : V
  mlp_c_proj_w : ℕ → ℕ → ℚ
  mlp_c_proj_b : V
  ln_2 : V → V

/-- The aggregation-block MLP `c_fc → QuickGELU → c_proj` (widths
`d_model → d_model·1 → d_model`), per token position. -/
def AggregationBlock.mlpV (sig : ℚ → ℚ) (b : AggregationBlock) (x : V) : V :=
  linear (b.d_model * 1) b.mlp_c_proj_w b.mlp_c_proj_b
    (fun i => quickGELU sig (linear b.d_model b.mlp_c_fc_w b.mlp_c_fc_b x i))

/-- The aggregation-block MLP applied to every token. -/
def AggregationBlock.mlpSeq (sig : ℚ → ℚ) (b : AggregationBlock) (s : Seq) : Seq :=
  s.map (liftV (b.mlpV sig))

/-- Model of `AggregationBlock.attention` (line 251): `attn(x[:1], x[1:], x[1:])`
— the cls token attends to the others. -/
def AggregationBlock.attention (b : AggregationBlock) (x : Seq) : Seq :=
  b.attn (x.take 1) (x.drop 1) (x.drop 1)

/-- Model of `AggregationBlock.forward` (lines 253-256):
`cls = cls + attention(ln_1(concat(cls, x)))` then
`cls = cls + mlp(ln_2(cls))`. -/
def AggregationBlock.forward (sig : ℚ → ℚ) (b : AggregationBlock) (x : Seq) (cls : Seq) : Seq :=
  let cls1 := addSeq cls (b.attention (mapSeq b.ln_1 (cls ++ x)))
  addSeq cls1 (b.mlpSeq sig (mapSeq b.ln_2 cls1))

/-! Section: `UnfoldTemporalWindows` (model_bk.py lines 258-283), specialised to
its only instantiation `UnfoldTemporalWindows(5)` (window size 5, stride 1,
dilation 1, hence `padding = (5 + 0 - 1) // 2 = 2`).  The input of
`forward` has shape `(N·T, C, P)`; every step of the
view/permute/unfold/reshape chain is one definition, with tensors as index
functions (a row-major `view` is index arithmetic). -/

/-- Model of `x.view(-1, T, C, P)`: split the leading `N·T` dimension. -/
def UnfoldTemporalWindows.view_NTCP (T : ℕ) (x : T3) : T4 :=
  fun n t c p => x (n * T + t) c p

/-- Model of `.permute(0,2,1,3)`: `(N,T,C,P) → (N,C,T,P)`. -/
def UnfoldTemporalWindows.permute_NCTP (x : T4) : T4 :=
  fun n c t p => x n t c p

/-- The library `nn.Unfold` with kernel `(5,1)`, dilation `(1,1)`, stride
`(1,1)`, padding `(2,0)`, applied to a tensor of shape `(N,C,T,P)`: output
channel `j = c·5 + s` at output location `l = t·P + p` reads the
zero-padded input at row `t + s - 2`, column `p`. -/
def UnfoldTemporalWindows.unfold_k5 (T P : ℕ) (x : T4) : T3 :=
  fun n j l =>
    if 2 ≤ l / P + j % 5 ∧ l / P + j % 5 ≤ T + 1 then
      x n (j / 5) (l / P + j % 5 - 2) (l % P)
    else 0

/-- Model of `.view(-1, C, 5, T, P)`: split the channel and location dimensions. -/
def UnfoldTemporalWindows.view_NCSTP (P : ℕ) (x : T3) : T5 :=
  fun n c s t p => x n (c * 5 + s) (t * P + p)

/-- Model of `.permute(0,3,1,2,4)`: `(N,C,5,T,P) → (N,T,C,5,P)`. -/
def UnfoldTemporalWindows.permute_NTCSP (x : T5) : T5 :=
  fun n t c s p => x n c s t p

/-- Model of `.reshape(NT, C, -1)`: merge `(N,T)` back into `N·T` and `(5,P)` into
the window/position axis. -/
def UnfoldTemporalWindows.reshape_NTCO (T P : ℕ) (x : T5) : T3 :=
  fun nt c o => x (nt / T) (nt % T) c (o / P) (o % P)

/-- Model of `UnfoldTemporalWindows.forward` (lines 271-283) for window size 5:
the composition of the view/permute/unfold/view/permute/reshape chain. -/
def UnfoldTemporalWindows.forward (T P : ℕ) (x : T3) : T3 :=
  UnfoldTemporalWindows.reshape_NTCO T P
    (UnfoldTemporalWindows.permute_NTCSP
      (UnfoldTemporalWindows.view_NCSTP P
        (UnfoldTemporalWindows.unfold_k5 T P
          (UnfoldTemporalWindows.permute_NCTP
            (UnfoldTemporalWindows.view_NTCP T x)))))

/-! Section: `Correlation_Module` (model_bk.py lines 285-304) -/

/-- The affinities of `Correlation_Module.forward` (line 301):
`einsum('lnd,ond->lon', x, upfold) / math.sqrt(D)`, with `msqrt D`
modelling the library `math.sqrt(D)`. -/
def Correlation_Module.affinities (msqrt : ℕ → ℚ) (D : ℕ) (x upfold : T3) : T3 :=
  fun l o n => (∑ e in Finset.range D, x l n e * upfold o n e) / msqrt D

/-- Model of `Correlation_Module.forward` (lines 295-304):
`einsum('lon,ond->lnd', sigmoid(affinities) - 0.5, upfold)`.  `nO` is the
size of the `o` dimension of `upfold`. -/
def Correlation_Module.forward (sig : ℚ → ℚ) (msqrt : ℕ → ℚ) (D nO : ℕ)
    (x upfold : T3) : T3 :=
  fun l n d =>
    ∑ o in Finset.range nO,
      (sig (Correlation_Module.affinities msqrt D x upfold l o n) - 0.5) * upfold o n d

/-! Section: `TemporalAggregationBlock` (model_bk.py lines 306-333) -/

/-- The `TemporalAggregationBlock` module: its `attn` is a
`Correlation_Module` and its `upfold` an `UnfoldTemporalWindows(5)`; only
`ln_1` (a library LayerNorm, abstract position-wise) carries parameters. -/
structure TemporalAggregationBlock where
  ln_1 : V → V

/-- Model of `TemporalAggregationBlock.attention` (lines 322-326): drop the cls
token, permute LND → NDL, unfold temporal windows (`P` is the number of
non-cls tokens), permute back to LND, and correlate with the cls token
`x[:1]`.  `D` is the feature width of `x`. -/
def TemporalAggregationBlock.attention (sig : ℚ → ℚ) (msqrt : ℕ → ℚ)
    (_b : TemporalAggregationBlock) (D : ℕ) (x : Seq) (T : ℕ) : Seq :=
  let P := x.length - 1
  let xIn : T3 := fun nt d l => seqAt (x.drop 1) l nt d
  let xu : T3 := UnfoldTemporalWindows.forward T P xIn
  let xuPerm : T3 := fun o nt d => xu nt d o
  [fun n d =>
    Correlation_Module.forward sig msqrt D (5 * P)
      (fun l m e => seqAt (x.take 1) l m e) xuPerm 0 n d]

/-- Model of `TemporalAggregationBlock.forward` (lines 328-333):
`cls = attention(ln_1(x), T)`. -/
def TemporalAggregationBlock.forward (sig : ℚ → ℚ) (msqrt : ℕ → ℚ)
    (b : TemporalAggregationBlock) (D : ℕ) (x : Seq) (T : ℕ) : Seq :=
  TemporalAggregationBlock.attention sig msqrt b D (mapSeq b.ln_1 x) T

/-! Section: `Transformer` (model_bk.py lines 335-364) -/

/-- The per-layer loop of `Transformer.forward` (lines 354-357): each
residual block transforms `x`, then the matching aggregation block updates
the query from the new `x` (the `checkpoint` call computes the same
value). -/
def transformerLoop (sig : ℚ → ℚ) :
    List (ResidualAttentionBlock × AggregationBlock) → Seq × Seq → Seq × Seq
  | [], s => s
  | (r, a) :: rest, (x, q) =>
      transformerLoop sig rest (r.forward sig x, a.forward sig (r.forward sig x) q)

/-- The `Transformer` module.  `resblocks` and `aggblocks` both have
`layers` entries by construction (lines 343, 345); `query` is the learned
token of shape `(1, 1, width)`; `temporal_ada_weight` the learned scalar. -/
structure Transformer where
  width : ℕ
  layers : ℕ
  resblocks : List ResidualAttentionBlock
  query : V
  aggblocks : List AggregationBlock
  taggblocks : TemporalAggregationBlock
  temporal_ada_weight : ℚ

/-- Model of `Transformer.__init__` (lines 336-349): `temporal_ada_weight` is
created as `nn.Parameter(torch.zeros(1))`, i.e. zero. -/
def Transformer.mk0 (width layers : ℕ) (resblocks : List ResidualAttentionBlock)
    (query : V) (aggblocks : List AggregationBlock)
    (taggblocks : TemporalAggregationBlock) : Transformer :=
  ⟨width, layers, resblocks, query, aggblocks, taggblocks, 0⟩

/-- Model of `Transformer.forward` (lines 351-360): the query starts as
`self.query.repeat(1, N, 1)` (a single token, constant across the batch),
is threaded through the loop, and the temporal-aggregation output — a
single token — is scaled by `temporal_ada_weight` and broadcast-added to
every token of `x`. -/
def Transformer.forward (sig : ℚ → ℚ) (msqrt : ℕ → ℚ) (t : Transformer)
    (x : Seq) (T : ℕ) : Seq × Seq :=
  let s := transformerLoop sig (t.resblocks.zip t.aggblocks) (x, [fun _n d => t.query d])
  let tcls := TemporalAggregationBlock.forward sig msqrt t.taggblocks t.width s.1 T
  (s.1.map (fun v => fun n d => v n d + seqAt tcls 0 n d * t.temporal_ada_weight), s.2)

/-! Section: C5 — the aggregation path.  The library
`nn.MultiheadAttention` computes attention independently for each batch
element; in `AggregationBlock` the batch dimension carries the `N·T`
frames of the videos, so the aggregation path is per-frame.  Agreement of
two sequences at one batch index, and batch-locality of an attention
function, make this precise. -/

/-- Agreement of two sequences at batch index `n`: equal lengths and
equal entries at every sequence position and feature for that batch
index. -/
def agreeAt (n : ℕ) (x y : Seq) : Prop :=
  x.length = y.length ∧ ∀ l d, seqAt x l n d = seqAt y l n d

lemma agreeAt_refl (n : ℕ) (x : Seq) : agreeAt n x x :=
  ⟨rfl, fun _ _ => rfl⟩

lemma seqAt_of_le (x : Seq) (l : ℕ) (h : x.length ≤ l) :
    seqAt x l = fun _ _ => 0 := by
  simp [seqAt, List.getD_eq_getElem?_getD, List.getElem?_eq_none h]

lemma seqAt_map_of_lt (f : BD → BD) (x : Seq) (l : ℕ) (h : l < x.length) :
    seqAt (x.map f) l = f (seqAt x l) := by
  have hx : x[l]? = some x[l] := List.getElem?_eq_getElem h
  simp [seqAt, List.getD_eq_getElem?_getD, List.getElem?_map, hx]

lemma seqAt_append_ge (x y : Seq) (l : ℕ) (h : x.length ≤ l) :
    seqAt (x ++ y) l = seqAt y (l - x.length) := by
  conv_lhs => rw [show l = x.length + (l - x.length) from (Nat.add_sub_cancel' h).symm]
  exact seqAt_append_right x y _

lemma agreeAt_mapSeq (g : V → V) {n : ℕ} {x y : Seq} (h : agreeAt n x y) :
    agreeAt n (mapSeq g x) (mapSeq g y) := by
  refine ⟨by simpa [mapSeq] using h.1, ?_⟩
  intro l d
  by_cases hl : l < x.length
  · have hly : l < y.length := h.1 ▸ hl
    rw [mapSeq, mapSeq, seqAt_map_of_lt _ _ _ hl, seqAt_map_of_lt _ _ _ hly]
    show g (fun e => seqAt x l n e) d = g (fun e => seqAt y l n e) d
    congr 1
    funext e
    exact h.2 l e
  · have hly : ¬ l < y.length := h.1 ▸ hl
    rw [mapSeq, mapSeq, seqAt_of_le _ _ (by simpa using le_of_not_lt hl),
      seqAt_of_le _ _ (by simpa using le_of_not_lt hly)]

lemma agreeAt_append {n : ℕ} {x x' y y' : Seq} (h1 : agreeAt n x x')
    (h2 : agreeAt n y y') : agreeAt n (x ++ y) (x' ++ y') := by
  refine ⟨by simp [h1.1, h2.1], ?_⟩
  intro l d
  by_cases hl : l < x.length
  · rw [seqAt_append_left _ _ _ hl, seqAt_append_left _ _ _ (h1.1 ▸ hl)]
    exact h1.2 l d
  · have hge : x.length ≤ l := le_of_not_lt hl
    rw [seqAt_append_ge _ _ _ hge, seqAt_append_ge _ _ _ (h1.1 ▸ hge), ← h1.1]
    exact h2.2 (l - x.length) d

lemma seqAt_addSeq_of_lt (x y : Seq) (l : ℕ) (hx : l < x.length) (hy : l < y.length) :
    seqAt (addSeq x y) l = fun n d => seqAt x l n d + seqAt y l n d := by
  induction x generalizing y l with
  | nil => simp at hx
  | cons a t ih =>
    cases y with
    | nil => simp at hy
    | cons b s =>
      cases l with
      | zero => rfl
      | succ m =>
        simp only [addSeq, List.zipWith_cons_cons]
        show seqAt (List.zipWith _ t s) m = _
        exact ih s m (by simpa using hx) (by simpa using hy)

lemma agreeAt_addSeq {n : ℕ} {x x' y y' : Seq} (h1 : agreeAt n x x')
    (h2 : agreeAt n y y') : agreeAt n (addSeq x y) (addSeq x' y') := by
  refine ⟨by simp [length_addSeq, h1.1, h2.1], ?_⟩
  intro l d
  by_cases hl : l < x.length ∧ l < y.length
  · rw [seqAt_addSeq_of_lt _ _ _ hl.1 hl.2,
      seqAt_addSeq_of_lt _ _ _ (h1.1 ▸ hl.1) (h2.1 ▸ hl.2)]
    show seqAt x l n d + seqAt y l n d = seqAt x' l n d + seqAt y' l n d
    rw [h1.2 l d, h2.2 l d]
  · have e1 := h1.1
    have e2 := h2.1
    have hlen : (addSeq x y).length ≤ l := by
      rw [length_addSeq]; omega
    have hlen' : (addSeq x' y').length ≤ l := by
      rw [length_addSeq]; omega
    rw [seqAt_of_le _ _ hlen, seqAt_of_le _ _ hlen']

lemma seqAt_drop1 (x : Seq) (l : ℕ) : seqAt (x.drop 1) l = seqAt x (l + 1) := by
  cases x <;> simp [seqAt]

lemma agreeAt_drop1 {n : ℕ} {x x' : Seq} (h : agreeAt n x x') :
    agreeAt n (x.drop 1) (x'.drop 1) :=
  ⟨by simp [h.1], fun l d => by rw [seqAt_drop1, seqAt_drop1]; exact h.2 (l + 1) d⟩

lemma seqAt_take1_zero (x : Seq) (h : 0 < x.length) :
    seqAt (x.take 1) 0 = seqAt x 0 := by
  cases x with
  | nil => simp at h
  | cons a t => rfl

lemma agreeAt_take1 {n : ℕ} {x x' : Seq} (h : agreeAt n x x') :
    agreeAt n (x.take 1) (x'.take 1) := by
  refine ⟨by simp [h.1], ?_⟩
  intro l d
  cases l with
  | zero =>
    by_cases h0 : 0 < x.length
    · rw [seqAt_take1_zero _ h0, seqAt_take1_zero _ (h.1 ▸ h0)]
      exact h.2 0 d
    · have hx : x = [] := List.length_eq_zero.1 (by omega)
      have hx' : x' = [] := List.length_eq_zero.1 (by rw [← h.1]; omega)
      rw [hx, hx']
  | succ m =>
    rw [seqAt_of_le _ _ (by rw [List.length_take]; omega),
      seqAt_of_le _ _ (by rw [List.length_take]; omega)]

/-- Batch-locality of an attention function, the behaviour of the library
`nn.MultiheadAttention` on LND inputs: attention is computed independently
for each batch element, so if two (query, key, value) triples agree at
batch index `n`, the outputs agree at batch index `n`. -/
def batchLocal (f : Seq → Seq → Seq → Seq) : Prop :=
  ∀ (n : ℕ) (q q' k k' v v' : Seq),
    agreeAt n q q' → agreeAt n k k' → agreeAt n v v' →
    agreeAt n (f q k v) (f q' k' v')

lemma aggForward_batchLocal (sig : ℚ → ℚ) (a : AggregationBlock)
    (hattn : batchLocal a.attn) {n : ℕ} {x x' cls cls' : Seq}
    (hx : agreeAt n x x') (hc : agreeAt n cls cls') :
    agreeAt n (a.forward sig x cls) (a.forward sig x' cls') := by
  have hy : agreeAt n (mapSeq a.ln_1 (cls ++ x)) (mapSeq a.ln_1 (cls' ++ x')) :=
    agreeAt_mapSeq _ (agreeAt_append hc hx)
  have hat : agreeAt n (a.attention (mapSeq a.ln_1 (cls ++ x)))
      (a.attention (mapSeq a.ln_1 (cls' ++ x'))) :=
    hattn n _ _ _ _ _ _ (agreeAt_take1 hy) (agreeAt_drop1 hy) (agreeAt_drop1 hy)
  have hcls1 : agreeAt n (addSeq cls (a.attention (mapSeq a.ln_1 (cls ++ x))))
      (addSeq cls' (a.attention (mapSeq a.ln_1 (cls' ++ x')))) :=
    agreeAt_addSeq hc hat
  have hmlp : agreeAt n
      (a.mlpSeq sig (mapSeq a.ln_2 (addSeq cls (a.attention (mapSeq a.ln_1 (cls ++ x))))))
      (a.mlpSeq sig (mapSeq a.ln_2 (addSeq cls' (a.attention (mapSeq a.ln_1 (cls' ++ x')))))) :=
    agreeAt_mapSeq (a.mlpV sig) (agreeAt_mapSeq a.ln_2 hcls1)
  exact agreeAt_addSeq hcls1 hmlp

/-- A concrete batch-local attention function (attention-shaped: the
query is modulated by key/value data of the same batch element only). -/
def cAttn : Seq → Seq → Seq → Seq :=
  fun q k v => q.map (fun qt => fun n d => qt n d + seqAt k 0 n d * seqAt v 0 n d)

lemma cAttn_batchLocal : batchLocal cAttn := by
  intro n q q' k k' v v' hq hk hv
  refine ⟨by simp [cAttn, hq.1], ?_⟩
  intro l d
  by_cases hl : l < q.length
  · rw [cAttn, cAttn, seqAt_map_of_lt _ _ _ hl, seqAt_map_of_lt _ _ _ (hq.1 ▸ hl)]
    show seqAt q l n d + seqAt k 0 n d * seqAt v 0 n d
        = seqAt q' l n d + seqAt k' 0 n d * seqAt v' 0 n d
    rw [hq.2 l d, hk.2 0 d, hv.2 0 d]
  · have hly : ¬ l < q'.length := hq.1 ▸ hl
    rw [cAttn, cAttn, seqAt_of_le _ _ (by simpa using le_of_not_lt hl),
      seqAt_of_le _ _ (by simpa using le_of_not_lt hly)]

/-- A concrete aggregation block whose `attn` is the batch-local `cAttn`. -/
def aggW : AggregationBlock :=
  ⟨2, cAttn, id, fun _ _ => 1, fun _ => 0, fun _ _ => 1, fun _ => 0, id⟩

/-- A one-token input whose frame 0 carries 1 and every other frame 2. -/
def xA : Seq := [fun n _d => if n = 0 then (1 : ℚ) else 2]

/-- A one-token input agreeing with `xA` at frame 0 but not at frame 1. -/
def xB : Seq := [fun n _d => if n = 0 then (1 : ℚ) else 3]

/-- A constant query token. -/
def clsW : Seq := [fun _ _ => (1 : ℚ)]

lemma agreeAt0_xA_xB : agreeAt 0 xA xB := by
  refine ⟨rfl, ?_⟩
  intro l d
  cases l with
  | zero => rfl
  | succ m => rfl

/-- Counterexample to C5 as stated: the claim asserts that in each
`AggregationBlock` the query attends across the frames of the video, but
the attention is batched over the `N·T` frame dimension.  With the
batch-local attention the library provides, two inputs that agree at
frame 0 but differ at frame 1 produce identical query updates at frame 0:
no information flows across frames in this path. -/
theorem C5_counterexample :
    batchLocal cAttn ∧
    seqAt xA 0 1 0 ≠ seqAt xB 0 1 0 ∧
    agreeAt 0 (AggregationBlock.forward (fun t => t) aggW xA clsW)
      (AggregationBlock.forward (fun t => t) aggW xB clsW) :=
  ⟨cAttn_batchLocal, by decide,
    aggForward_batchLocal (fun t => t) aggW cAttn_batchLocal agreeAt0_xA_xB
      (agreeAt_refl 0 clsW)⟩

/-- C5 (amended): the learned query token is a single token carried
through all layers — `Transformer.forward` starts it from `self.query`
repeated over the batch, and after each residual block `i` the query is
updated by aggregation block `i` from that block's output; inside each
`AggregationBlock` the query (with a residual connection, followed by a
residual MLP) attends only to the layer-normalised tokens of the residual
block output — the keys and values are `ln_1` applied to the `x` tokens,
never the query itself; and because the attention is batched over the
`N·T` frame dimension, each frame's query aggregates only within its own
frame: inputs agreeing at a batch index give query updates agreeing at
that batch index. -/
theorem C5_query_per_frame_aggregation (sig : ℚ → ℚ) (msqrt : ℕ → ℚ) :
    (∀ (a : AggregationBlock) (c : BD) (x : Seq),
      a.forward sig x [c]
        = addSeq
            (addSeq [c] (a.attn [liftV a.ln_1 c] (mapSeq a.ln_1 x) (mapSeq a.ln_1 x)))
            (a.mlpSeq sig (mapSeq a.ln_2
              (addSeq [c]
                (a.attn [liftV a.ln_1 c] (mapSeq a.ln_1 x) (mapSeq a.ln_1 x)))))) ∧
    (∀ (r : ResidualAttentionBlock) (a : AggregationBlock)
        (rest : List (ResidualAttentionBlock × AggregationBlock)) (x q : Seq),
      transformerLoop sig ((r, a) :: rest) (x, q)
        = transformerLoop sig rest (r.forward sig x, a.forward sig (r.forward sig x) q)) ∧
    (∀ (t : Transformer) (x : Seq) (T : ℕ),
      (Transformer.forward sig msqrt t x T).2
        = (transformerLoop sig (t.resblocks.zip t.aggblocks)
            (x, [fun _n d => t.query d])).2) ∧
    (∀ (a : AggregationBlock), batchLocal a.attn →
      ∀ (n : ℕ) (x x' cls cls' : Seq), agreeAt n x x' → agreeAt n cls cls' →
        agreeAt n (a.forward sig x cls) (a.forward sig x' cls')) := by
  refine ⟨?_, fun _ _ _ _ _ => rfl, fun _ _ _ => rfl, ?_⟩
  · intro a c x
    simp only [AggregationBlock.forward, AggregationBlock.attention, mapSeq,
      List.singleton_append, List.map_cons, List.take_succ_cons, List.take_zero,
      List.drop_succ_cons, List.drop_zero]
  · intro a hattn n x x' cls cls' hx hc
    exact aggForward_batchLocal sig a hattn hx hc

/-- Witness for the amended C5, instantiating the per-frame part at the
concrete batch-local block and inputs. -/
theorem C5_query_per_frame_aggregation_witness :
    (batchLocal cAttn ∧ agreeAt 0 xA xB ∧ agreeAt 0 clsW clsW) ∧
    agreeAt 0 (AggregationBlock.forward (fun t => t) aggW xA clsW)
      (AggregationBlock.forward (fun t => t) aggW xB clsW) :=
  ⟨⟨cAttn_batchLocal, agreeAt0_xA_xB, agreeAt_refl 0 clsW⟩,
    (C5_query_per_frame_aggregation (fun t => t) (fun _ => 1)).2.2.2 aggW
      cAttn_batchLocal 0 xA xB clsW clsW agreeAt0_xA_xB (agreeAt_refl 0 clsW)⟩

/-! Section: C4: the temporal correlation path -/

lemma mul_add_div_eq (a b c : ℕ) (hb : 0 < b) (hc : c < b) : (a * b + c) / b = a := by
  rw [Nat.mul_comm, Nat.mul_add_div hb, Nat.div_eq_of_lt hc, Nat.add_zero]

lemma mul_add_mod_eq (a b c : ℕ) (hc : c < b) : (a * b + c) % b = c := by
  rw [Nat.mul_comm, Nat.mul_add_mod, Nat.mod_eq_of_lt hc]

/-- C4: for an input laid out `(N·T, C, P)`, `UnfoldTemporalWindows(5)`
gathers, for each frame `t = nt % T` and window position `s < 5`, the
features of frame `t + s - 2` of the same video (zero when the centred
window `[t-2, t+2]` leaves `[0, T)`); `Correlation_Module` returns for the
cls token the sum over window positions `o` of
`(sigmoid(⟨cls, upfold_o⟩ / sqrt D) - 0.5) * upfold_o`; and
`Transformer.forward` adds the temporal-aggregation output to `x` scaled
by `temporal_ada_weight`, which `__init__` sets to zero. -/
theorem C4_temporal_windows (sig : ℚ → ℚ) (msqrt : ℕ → ℚ) :
    (∀ (T P : ℕ) (x : T3) (nt c s p : ℕ), 0 < P → s < 5 → p < P →
      UnfoldTemporalWindows.forward T P x nt c (s * P + p)
        = if 2 ≤ nt % T + s ∧ nt % T + s ≤ T + 1 then
            x (nt / T * T + (nt % T + s - 2)) c p
          else 0) ∧
    (∀ (D nO : ℕ) (x up : T3) (l n d : ℕ),
      Correlation_Module.forward sig msqrt D nO x up l n d
        = ∑ o in Finset.range nO,
            (sig ((∑ e in Finset.range D, x l n e * up o n e) / msqrt D) - 0.5)
              * up o n d) ∧
    (∀ (t : Transformer) (x : Seq) (T : ℕ),
      (Transformer.forward sig msqrt t x T).1
        = (transformerLoop sig (t.resblocks.zip t.aggblocks)
              (x, [fun _n d => t.query d])).1.map
            (fun v => fun n d => v n d
              + seqAt (TemporalAggregationBlock.forward sig msqrt t.taggblocks t.width
                  (transformerLoop sig (t.resblocks.zip t.aggblocks)
                    (x, [fun _n d => t.query d])).1 T) 0 n d
                * t.temporal_ada_weight)) ∧
    (∀ (width layers : ℕ) (rs : List ResidualAttentionBlock) (q : V)
        (ags : List AggregationBlock) (tg : TemporalAggregationBlock),
      (Transformer.mk0 width layers rs q ags tg).temporal_ada_weight = 0) := by
  refine ⟨?_, fun _ _ _ _ _ _ _ => rfl, fun _ _ _ => rfl, fun _ _ _ _ _ _ => rfl⟩
  intro T P x nt c s p hP hs hp
  have e1 : (s * P + p) / P = s := mul_add_div_eq s P p hP hp
  have e2 : (s * P + p) % P = p := mul_add_mod_eq s P p hp
  have e3 : (c * 5 + s) / 5 = c := mul_add_div_eq c 5 s (by norm_num) hs
  have e4 : (c * 5 + s) % 5 = s := mul_add_mod_eq c 5 s hs
  have e5 : (nt % T * P + p) / P = nt % T := mul_add_div_eq _ P p hP hp
  have e6 : (nt % T * P + p) % P = p := mul_add_mod_eq _ P p hp
  simp only [UnfoldTemporalWindows.forward, UnfoldTemporalWindows.reshape_NTCO,
    UnfoldTemporalWindows.permute_NTCSP, UnfoldTemporalWindows.view_NCSTP,
    UnfoldTemporalWindows.unfold_k5, UnfoldTemporalWindows.permute_NCTP,
    UnfoldTemporalWindows.view_NTCP, e1, e2, e3, e4, e5, e6]

/-- A concrete rank-3 index function. -/
def w3 : T3 := fun a b c => (a : ℚ) + b + c

/-- Witness for C4, instantiating the unfold characterisation at
`T = 3`, `P = 2`, `nt = 4`, `c = 0`, `s = 1`, `p = 1`. -/
theorem C4_temporal_windows_witness :
    ((0 : ℕ) < 2 ∧ 1 < 5 ∧ 1 < 2) ∧
    UnfoldTemporalWindows.forward 3 2 w3 4 0 (1 * 2 + 1)
      = if 2 ≤ 4 % 3 + 1 ∧ 4 % 3 + 1 ≤ 3 + 1 then
          w3 (4 / 3 * 3 + (4 % 3 + 1 - 2)) 0 1
        else 0 :=
  ⟨⟨by decide, by decide, by decide⟩,
    (C4_temporal_windows (fun t => t) (fun _ => 1)).1 3 2 w3 4 0 1 1
      (by decide) (by decide) (by decide)⟩

/-! Section: Shape-level model of `VisionTransformer` (model_bk.py lines
367-433).  A shape is the list of dimension sizes; each tensor operation
of the forward pass becomes its (library) shape rule, returning `none`
where the library would raise. -/

/-- A tensor shape. -/
abbrev Shape := List ℕ

/-- The output spatial size of the library `nn.Conv2d`:
`(size + 2·padding - kernel) / stride + 1`. -/
def conv2dOut (size kernel stride padding : ℕ) : ℕ :=
  (size + 2 * padding - kernel) / stride + 1

/-- The shape rule of `nn.Conv2d(out_channels, kernel, stride, padding)`
on an NCHW input. -/
def conv2dShape (outC kernel stride padding : ℕ) : Shape → Option Shape
  | [n, _, h, w] =>
      some [n, outC, conv2dOut h kernel stride padding, conv2dOut w kernel stride padding]
  | _ => none

/-- Model of `x.reshape(x.shape[0], x.shape[1], -1)` (line 411). -/
def flatten2Shape : Shape → Option Shape
  | n :: c :: rest => some [n, c, rest.prod]
  | _ => none

/-- Model of `x.permute(0, 2, 1)` (line 412). -/
def permute021Shape : Shape → Option Shape
  | [a, b, c] => some [a, c, b]
  | _ => none

/-- Model of `x.permute(1, 0, 2)` (lines 417, 421, 423). -/
def permute102Shape : Shape → Option Shape
  | [a, b, c] => some [b, a, c]
  | _ => none

/-- Model of `torch.cat([cls, x], dim=1)` (line 413), where the cls operand
`class_embedding + zeros(N, 1, width)` has shape `(N, 1, width)`. -/
def catTokenShape : Shape → Option Shape
  | [n, t, w] => some [n, t + 1, w]
  | _ => none

/-- One step of the library broadcasting rule, from the trailing side:
the dimensions must be equal or one of them 1. -/
def broadcastDim (a b : ℕ) : Option ℕ :=
  if a = b then some a else if a = 1 then some b else if b = 1 then some a else none

/-- Broadcasting on reversed (trailing-first) dimension lists. -/
def broadcastRev : List ℕ → List ℕ → Option (List ℕ)
  | [], ys => some ys
  | x :: xs, [] => some (x :: xs)
  | x :: xs, y :: ys =>
      match broadcastDim x y, broadcastRev xs ys with
      | some d, some rest => some (d :: rest)
      | _, _ => none

/-- The library broadcasting rule for an elementwise binary operation
(such as the `+` of line 414). -/
def broadcastShapes (x y : Shape) : Option Shape :=
  (broadcastRev x.reverse y.reverse).map List.reverse

/-- The shape rule of `LayerNorm(w)`: the normalised (last) dimension must
be `w`; the shape is preserved. -/
def layerNormShape (w : ℕ) : Shape → Option Shape :=
  fun s => if s.getLast? = some w then some s else none

/-- The shape behaviour of `Transformer.forward` on an LND input whose
feature width is the transformer width: `x` keeps its shape (each residual
block's attention returns a query-shaped output, the adapters and MLPs act
on the feature dimension, and the temporal addend of shape `(1, N, D)`
broadcasts over `L`), and the aggregated query has shape `(1, N, D)`. -/
def transformerShape (w : ℕ) : Shape → Option (Shape × Shape)
  | [l, n, d] => if d = w then some ([l, n, d], [1, n, d]) else none
  | _ => none

/-- Model of `x[:, 0, :]` (lines 423): drop dimension 1, which must be nonempty. -/
def index0dim1 : Shape → Option Shape
  | [n, t, w] => if 0 < t then some [n, w] else none
  | _ => none

/-- Model of `x @ proj` for 2-d operands (line 429). -/
def matmulShape : Shape → Shape → Option Shape
  | [n, w], [w2, o] => if w = w2 then some [n, o] else none
  | _, _ => none

/-- The token sequence entering the transformer (lines 410-417): conv1,
flatten, permute, prepend the class token, add the positional embedding
(whose shape, from `__init__` line 376, is
`((input_resolution // patch_size)² + 1, width)`), `ln_pre`, and the
NLD → LND permute. -/
def VisionTransformer.tokensShapeLND (ir ps w : ℕ) (input : Shape) : Option Shape := do
  let s1 ← conv2dShape w ps ps 0 input
  let s2 ← flatten2Shape s1
  let s3 ← permute021Shape s2
  let s4 ← catTokenShape s3
  let s5 ← broadcastShapes s4 [(ir / ps) * (ir / ps) + 1, w]
  let s6 ← layerNormShape w s5
  permute102Shape s6

/-- The full shape pipeline of `VisionTransformer.forward` (lines
408-433): tokens, transformer, permute back, the `ada_weight`-weighted sum
of `ln_post(x[:, 0, :])` and `ln_post_cls(new_cls.permute(1,0,2))[:, 0]`
(scalar weights preserve shapes), and the projection by
`proj : (width, output_dim)`. -/
def VisionTransformer.forwardShape (ir ps w outD : ℕ) (input : Shape) : Option Shape := do
  let lnd ← VisionTransformer.tokensShapeLND ir ps w input
  let (x2, q) ← transformerShape w lnd
  let x3 ← permute102Shape x2
  let cls1 ← index0dim1 x3
  let cls2 ← layerNormShape w cls1
  let qn ← permute102Shape q
  let qn2 ← layerNormShape w qn
  let cls3 ← index0dim1 qn2
  let summed ← broadcastShapes cls2 cls3
  matmulShape summed [w, outD]

lemma conv2dOut_exact (p k : ℕ) (hp : 0 < p) (hk : 0 < k) :
    conv2dOut (p * k) p p 0 = k := by
  cases k with
  | zero => exact absurd hk (by simp)
  | succ k2 =>
    have h1 : p * (k2 + 1) = p * k2 + p := Nat.mul_succ p k2
    have h2 : p * (k2 + 1) + 2 * 0 - p = p * k2 := by omega
    rw [conv2dOut, h2, Nat.mul_div_cancel_left k2 hp]

/-- C6: for an input batch `(N, 3, r, r)` with the patch size dividing
`r`, the token sequence entering the transformer has
`(r / patch_size)² + 1` tokens of width `width` in LND layout, and the
final output of `VisionTransformer.forward` has shape
`(N, output_dim)`. -/
theorem C6_vit_shapes (N r p w o : ℕ) (hp : 0 < p) (hr : 0 < r) (hdvd : p ∣ r) :
    VisionTransformer.tokensShapeLND r p w [N, 3, r, r]
      = some [(r / p) * (r / p) + 1, N, w] ∧
    VisionTransformer.forwardShape r p w o [N, 3, r, r] = some [N, o] := by
  obtain ⟨k, rfl⟩ := hdvd
  have hk : 0 < k := by
    rcases Nat.eq_zero_or_pos k with h | h
    · subst h; simp at hr
    · exact h
  have hco : conv2dOut (p * k) p p 0 = k := conv2dOut_exact p k hp hk
  have hdiv : p * k / p = k := Nat.mul_div_cancel_left k hp
  have htok : VisionTransformer.tokensShapeLND (p * k) p w [N, 3, p * k, p * k]
      = some [k * k + 1, N, w] := by
    simp [VisionTransformer.tokensShapeLND, conv2dShape, hco, hdiv, flatten2Shape,
      permute021Shape, catTokenShape, broadcastShapes, broadcastRev, broadcastDim,
      layerNormShape, permute102Shape]
  refine ⟨by rw [htok, hdiv], ?_⟩
  simp [VisionTransformer.forwardShape, htok, transformerShape, permute102Shape,
    index0dim1, layerNormShape, broadcastShapes, broadcastRev, broadcastDim,
    matmulShape]

/-- Witness for C6 at the ViT-B/32 configuration. -/
theorem C6_vit_shapes_witness :
    ((0 : ℕ) < 32 ∧ (0 : ℕ) < 224 ∧ 32 ∣ 224) ∧
    VisionTransformer.tokensShapeLND 224 32 768 [2, 3, 224, 224]
      = some [(224 / 32) * (224 / 32) + 1, 2, 768] ∧
    VisionTransformer.forwardShape 224 32 768 512 [2, 3, 224, 224]
      = some [2, 512] :=
  ⟨⟨by decide, by decide, by decide⟩,
    C6_vit_shapes 2 224 32 768 512 (by decide) (by decide) (by decide)⟩

/-! Section: Module-tree model of the constructors.  Each `__init__` of the
file is mirrored by a tree recording the class of every submodule and the
`requires_grad` flag of every `nn.Parameter` (the default for
`nn.Parameter` and for all library-module parameters is `True`; the only
explicit flags in the file are `requires_grad=True` on `query`,
`temporal_ada_weight` and `ada_weight`). -/

/-- The module classes appearing in model_bk.py. -/
inductive Cls where
  | adapter
  | aggregationBlock
  | temporalAggregationBlock
  | residualAttentionBlock
  | multiheadAttention
  | linearC
  | layerNormC
  | conv2dC
  | batchNorm2dC
  | quickGELUC
  | seqContainer
  | bottleneckC
  | attentionPool2dC
  | avgPool2dC
  | identityC
  | correlationModule
  | unfoldTemporalWindowsC
  | transformerC
  | visionTransformerC
  | modifiedResNetC
deriving DecidableEq

mutual

inductive Arch where
  | param (name : String) (requires_grad : Bool)
  | node (cls : Cls) (children : ArchList)

inductive ArchList where
  | nil
  | cons (a : Arch) (rest : ArchList)

end

/-- Convert a list of subtrees into the child list of a node. -/
def ArchList.ofList : List Arch → ArchList
  | [] => .nil
  | a :: rest => .cons a (ArchList.ofList rest)

mutual

/-- The number of submodules of class `c` in a module tree. -/
def Arch.countClass (c : Cls) : Arch → ℕ
  | .param _ _ => 0
  | .node cl ch => (if cl = c then 1 else 0) + ArchList.countClass c ch

def ArchList.countClass (c : Cls) : ArchList → ℕ
  | .nil => 0
  | .cons a rest => Arch.countClass c a + ArchList.countClass c rest

end

mutual

/-- All `(name, requires_grad)` parameter leaves of a module tree. -/
def Arch.params : Arch → List (String × Bool)
  | .param n g => [(n, g)]
  | .node _ ch => ArchList.params ch

def ArchList.params : ArchList → List (String × Bool)
  | .nil => []
  | .cons a rest => Arch.params a ++ ArchList.params rest

end

mutual

/-- Whether every parameter of the tree has `requires_grad = True`. -/
def Arch.allTrainable : Arch → Bool
  | .param _ g => g
  | .node _ ch => ArchList.allTrainable ch

def ArchList.allTrainable : ArchList → Bool
  | .nil => true
  | .cons a rest => Arch.allTrainable a && ArchList.allTrainable rest

end

/-- Model of `nn.Linear` with bias: weight and bias, both trainable by default. -/
def linearArch : Arch :=
  .node .linearC (ArchList.ofList [.param "weight" true, .param "bias" true])

/-- Model of `nn.Conv2d(..., bias=False)` — every conv in the file has no bias. -/
def conv2dArch : Arch :=
  .node .conv2dC (ArchList.ofList [.param "weight" true])

/-- Model of `nn.BatchNorm2d`: affine weight and bias. -/
def batchNorm2dArch : Arch :=
  .node .batchNorm2dC (ArchList.ofList [.param "weight" true, .param "bias" true])

/-- Model of `LayerNorm`: affine weight and bias. -/
def layerNormArch : Arch :=
  .node .layerNormC (ArchList.ofList [.param "weight" true, .param "bias" true])

/-- Model of `nn.MultiheadAttention`: packed in-projection and the out-projection. -/
def mhaArch : Arch :=
  .node .multiheadAttention (ArchList.ofList
    [.param "in_proj_weight" true, .param "in_proj_bias" true,
     .node .linearC (ArchList.ofList
       [.param "out_proj.weight" true, .param "out_proj.bias" true])])

/-- Model of `QuickGELU` (no parameters). -/
def quickGELUArch : Arch := .node .quickGELUC ArchList.nil

/-- Model of `Adapter.__init__` (lines 218-227): the `c_in → QuickGELU → c_out`
sequential. -/
def adapterArch : Arch :=
  .node .adapter (ArchList.ofList
    [.node .seqContainer (ArchList.ofList [linearArch, quickGELUArch, linearArch])])

/-- Model of `ResidualAttentionBlock.__init__` (lines 172-193): attention, `ln_1`,
the MLP sequential, `ln_2`, the two adapters and the prefix embeddings. -/
def residualAttentionBlockArch : Arch :=
  .node .residualAttentionBlock (ArchList.ofList
    [mhaArch, layerNormArch,
     .node .seqContainer (ArchList.ofList [linearArch, quickGELUArch, linearArch]),
     layerNormArch, adapterArch, adapterArch,
     .param "prefix_embedding_k" true, .param "prefix_embedding_v" true])

/-- Model of `AggregationBlock.__init__` (lines 236-247). -/
def aggregationBlockArch : Arch :=
  .node .aggregationBlock (ArchList.ofList
    [mhaArch, layerNormArch,
     .node .seqContainer (ArchList.ofList [linearArch, quickGELUArch, linearArch]),
     layerNormArch])

/-- Model of `TemporalAggregationBlock.__init__` (lines 307-320): a
`Correlation_Module`, `ln_1` and an `UnfoldTemporalWindows` — none of
which adds parameters beyond the LayerNorm. -/
def temporalAggregationBlockArch : Arch :=
  .node .temporalAggregationBlock (ArchList.ofList
    [.node .correlationModule ArchList.nil, layerNormArch,
     .node .unfoldTemporalWindowsC ArchList.nil])

/-- Model of `Transformer.__init__` (lines 336-349): `layers` residual blocks,
the learned `query` (explicitly `requires_grad=True`), `layers`
aggregation blocks, one temporal-aggregation block and the learned
`temporal_ada_weight` (explicitly `requires_grad=True`). -/
def transformerArch (layers : ℕ) : Arch :=
  .node .transformerC (ArchList.ofList
    [.node .seqContainer (ArchList.ofList (List.replicate layers residualAttentionBlockArch)),
     .param "query" true,
     .node .seqContainer (ArchList.ofList (List.replicate layers aggregationBlockArch)),
     temporalAggregationBlockArch,
     .param "temporal_ada_weight" true])

/-- Model of `VisionTransformer.__init__` (lines 368-406): `conv1`, the class and
positional embeddings, `ln_pre`, the transformer, `ln_post`,
`ln_post_cls`, `proj` and `ada_weight` (explicitly `requires_grad=True`).
The initialisation loops only zero adapter weights; they change no
`requires_grad` flag. -/
def visionTransformerArch (layers : ℕ) : Arch :=
  .node .visionTransformerC (ArchList.ofList
    [conv2dArch, .param "class_embedding" true, .param "positional_embedding" true,
     layerNormArch, transformerArch layers, layerNormArch, layerNormArch,
     .param "proj" true, .param "ada_weight" true])

/-- Model of `Bottleneck.__init__` (lines 13-40): three conv/bn pairs, an avgpool
(or identity) and an optional downsample branch `avgpool → conv → bn`. -/
def bottleneckArch (stride_gt1 downsample : Bool) : Arch :=
  .node .bottleneckC (ArchList.ofList
    ([conv2dArch, batchNorm2dArch, conv2dArch, batchNorm2dArch,
      (if stride_gt1 then .node .avgPool2dC ArchList.nil else .node .identityC ArchList.nil),
      conv2dArch, batchNorm2dArch]
      ++ (if downsample then
            [.node .seqContainer (ArchList.ofList
              [.node .avgPool2dC ArchList.nil, conv2dArch, batchNorm2dArch])]
          else [])))

/-- Model of `ModifiedResNet._make_layer` (lines 129-136): the first bottleneck has
the stage stride and (for every configuration used here, where `width > 0`
so `inplanes ≠ planes * 4` in stage 1, and stride 2 in stages 2-4) a
downsample branch; the remaining `blocks - 1` bottlenecks have neither. -/
def makeLayerArch (blocks : ℕ) (stride_gt1 : Bool) : List Arch :=
  bottleneckArch stride_gt1 true :: List.replicate (blocks - 1) (bottleneckArch false false)

/-- Model of `AttentionPool2d.__init__` (lines 59-66). -/
def attentionPoolArch : Arch :=
  .node .attentionPool2dC (ArchList.ofList
    [.param "positional_embedding" true, linearArch, linearArch, linearArch, linearArch])

/-- Model of `ModifiedResNet.__init__` (lines 102-127): the 3-layer stem, the four
bottleneck stages and the attention pool.  It contains no adapter, no
aggregation block and no temporal-aggregation block. -/
def modifiedResNetArch (l1 l2 l3 l4 : ℕ) : Arch :=
  .node .modifiedResNetC (ArchList.ofList
    ([conv2dArch, batchNorm2dArch, conv2dArch, batchNorm2dArch, conv2dArch,
      batchNorm2dArch, .node .avgPool2dC ArchList.nil,
      .node .seqContainer (ArchList.ofList (makeLayerArch l1 false)),
      .node .seqContainer (ArchList.ofList (makeLayerArch l2 true)),
      .node .seqContainer (ArchList.ofList (makeLayerArch l3 true)),
      .node .seqContainer (ArchList.ofList (makeLayerArch l4 true)),
      attentionPoolArch]))

/-- Model of `CLIP.__init__` (lines 437-465): a tuple/list `vision_layers` selects
the `ModifiedResNet` backbone, an integer the `VisionTransformer`. -/
def clipVisualArch : (ℕ × ℕ × ℕ × ℕ) ⊕ ℕ → Arch
  | .inl (a, b, c, d) => modifiedResNetArch a b c d
  | .inr layers => visionTransformerArch layers

lemma countClass_ofList (c : Cls) (L : List Arch) :
    ArchList.countClass c (ArchList.ofList L) = (L.map (Arch.countClass c)).sum := by
  induction L with
  | nil => rfl
  | cons a rest ih => simp [ArchList.ofList, ArchList.countClass, ih]

lemma countClass_ofList_replicate (c : Cls) (n : ℕ) (a : Arch) :
    ArchList.countClass c (ArchList.ofList (List.replicate n a))
      = n * Arch.countClass c a := by
  rw [countClass_ofList, List.map_replicate, List.sum_replicate, smul_eq_mul]

lemma bottleneck_count_adapter (s d : Bool) :
    Arch.countClass .adapter (bottleneckArch s d) = 0 := by
  cases s <;> cases d <;> rfl

lemma bottleneck_count_agg (s d : Bool) :
    Arch.countClass .aggregationBlock (bottleneckArch s d) = 0 := by
  cases s <;> cases d <;> rfl

lemma bottleneck_count_tagg (s d : Bool) :
    Arch.countClass .temporalAggregationBlock (bottleneckArch s d) = 0 := by
  cases s <;> cases d <;> rfl

/-- Counterexample to C3: the `ModifiedResNet` branch of `CLIP.__init__`
(here the RN50 configuration `(3, 4, 6, 3)`) contains no `Adapter`, no
`AggregationBlock` and no `TemporalAggregationBlock`. -/
theorem C3_counterexample :
    Arch.countClass Cls.adapter (clipVisualArch (Sum.inl (3, 4, 6, 3))) = 0 ∧
    Arch.countClass Cls.aggregationBlock (clipVisualArch (Sum.inl (3, 4, 6, 3))) = 0 ∧
    Arch.countClass Cls.temporalAggregationBlock (clipVisualArch (Sum.inl (3, 4, 6, 3))) = 0 := by
  refine ⟨?_, ?_, ?_⟩ <;> rfl

/-- C3 as amended: only the `VisionTransformer` backbone is extended —
for `layers = l` it contains `2·l` adapters, `l` aggregation blocks and
one temporal-aggregation block — while the `ModifiedResNet` backbone
contains none of them, for every stage configuration. -/
theorem C3_only_vit_extended (l c1 c2 c3 c4 : ℕ) :
    Arch.countClass Cls.adapter (clipVisualArch (Sum.inr l)) = 2 * l ∧
    Arch.countClass Cls.aggregationBlock (clipVisualArch (Sum.inr l)) = l ∧
    Arch.countClass Cls.temporalAggregationBlock (clipVisualArch (Sum.inr l)) = 1 ∧
    Arch.countClass Cls.adapter (clipVisualArch (Sum.inl (c1, c2, c3, c4))) = 0 ∧
    Arch.countClass Cls.aggregationBlock (clipVisualArch (Sum.inl (c1, c2, c3, c4))) = 0 ∧
    Arch.countClass Cls.temporalAggregationBlock (clipVisualArch (Sum.inl (c1, c2, c3, c4))) = 0 := by
  refine ⟨?_, ?_, ?_, ?_, ?_, ?_⟩ <;>
    simp [clipVisualArch, visionTransformerArch, transformerArch, modifiedResNetArch,
      makeLayerArch, attentionPoolArch, adapterArch, aggregationBlockArch,
      temporalAggregationBlockArch, residualAttentionBlockArch, mhaArch, linearArch,
      conv2dArch, batchNorm2dArch, layerNormArch, quickGELUArch,
      bottleneckArch, Arch.countClass, ArchList.countClass, ArchList.ofList,
      countClass_ofList_replicate, bottleneck_count_adapter, bottleneck_count_agg,
      bottleneck_count_tagg, Nat.mul_comm]

lemma allTrainable_ofList (L : List Arch) :
    ArchList.allTrainable (ArchList.ofList L) = L.all Arch.allTrainable := by
  induction L with
  | nil => rfl
  | cons a rest ih => simp [ArchList.ofList, ArchList.allTrainable, ih]

lemma allTrainable_ofList_replicate (n : ℕ) (a : Arch)
    (ha : Arch.allTrainable a = true) :
    ArchList.allTrainable (ArchList.ofList (List.replicate n a)) = true := by
  rw [allTrainable_ofList, List.all_eq_true]
  intro x hx
  rw [List.eq_of_mem_replicate hx]
  exact ha

mutual

lemma archAllTrainable_spec : ∀ (a : Arch), Arch.allTrainable a = true →
    ∀ pr ∈ Arch.params a, pr.2 = true
  | .param n g => by
      intro h pr hpr
      simp only [Arch.params, List.mem_singleton] at hpr
      subst hpr
      simpa [Arch.allTrainable] using h
  | .node cl ch => by
      intro h pr hpr
      exact archListAllTrainable_spec ch (by simpa [Arch.allTrainable] using h) pr
        (by simpa [Arch.params] using hpr)

lemma archListAllTrainable_spec : ∀ (L : ArchList), ArchList.allTrainable L = true →
    ∀ pr ∈ ArchList.params L, pr.2 = true
  | .nil => by
      intro h pr hpr
      simp [ArchList.params] at hpr
  | .cons a rest => by
      intro h pr hpr
      rw [ArchList.allTrainable, Bool.and_eq_true] at h
      rw [ArchList.params, List.mem_append] at hpr
      rcases hpr with h1 | h2
      · exact archAllTrainable_spec a h.1 pr h1
      · exact archListAllTrainable_spec rest h.2 pr h2

end

lemma bottleneck_allTrainable (s d : Bool) :
    Arch.allTrainable (bottleneckArch s d) = true := by
  cases s <;> cases d <;> rfl

lemma allTrainable_vit (l : ℕ) :
    Arch.allTrainable (visionTransformerArch l) = true := by
  simp [visionTransformerArch, transformerArch, Arch.allTrainable,
    ArchList.allTrainable, ArchList.ofList,
    allTrainable_ofList_replicate l residualAttentionBlockArch rfl,
    allTrainable_ofList_replicate l aggregationBlockArch rfl,
    conv2dArch, layerNormArch, temporalAggregationBlockArch]

lemma allTrainable_node (c : Cls) (L : List Arch) :
    Arch.allTrainable (.node c (ArchList.ofList L)) = L.all Arch.allTrainable := by
  simp [Arch.allTrainable, allTrainable_ofList]

lemma allTrainable_makeLayer (n : ℕ) (s : Bool) :
    Arch.allTrainable (.node .seqContainer (ArchList.ofList (makeLayerArch n s))) = true := by
  rw [allTrainable_node, makeLayerArch, List.all_cons, Bool.and_eq_true]
  refine ⟨bottleneck_allTrainable s true, ?_⟩
  rw [List.all_eq_true]
  intro x hx
  rw [List.eq_of_mem_replicate hx]
  exact bottleneck_allTrainable false false

lemma allTrainable_resnet (c1 c2 c3 c4 : ℕ) :
    Arch.allTrainable (modifiedResNetArch c1 c2 c3 c4) = true := by
  rw [modifiedResNetArch, allTrainable_node, List.all_eq_true]
  intro x hx
  simp only [List.mem_cons, List.not_mem_nil, or_false] at hx
  rcases hx with rfl | rfl | rfl | rfl | rfl | rfl | rfl | rfl | rfl | rfl | rfl | rfl
  · rfl
  · rfl
  · rfl
  · rfl
  · rfl
  · rfl
  · rfl
  · exact allTrainable_makeLayer c1 false
  · exact allTrainable_makeLayer c2 true
  · exact allTrainable_makeLayer c3 true
  · exact allTrainable_makeLayer c4 true
  · rfl

/-- Counterexample to C7: after construction the pretrained CLIP
positional embedding of the `VisionTransformer` is a trainable parameter
(and is not marked non-trainable): nothing in the constructors freezes
any weight. -/
theorem C7_counterexample :
    ("positional_embedding", true) ∈ (visionTransformerArch 2).params ∧
    ("positional_embedding", false) ∉ (visionTransformerArch 2).params := by
  constructor
  · decide
  · intro h
    have h2 := archAllTrainable_spec _ (allTrainable_vit 2) _ h
    simp at h2

/-- C7 as amended: the constructors freeze nothing — every parameter of
both backbones (pretrained CLIP weights and inserted adapter or
aggregation weights alike) has `requires_grad = True` after construction;
the only explicit flags in the file are `requires_grad=True` on `query`,
`temporal_ada_weight` and `ada_weight`, and freezing happens outside this
module. -/
theorem C7_nothing_frozen (l c1 c2 c3 c4 : ℕ) (pr : String × Bool)
    (h : pr ∈ (visionTransformerArch l).params ∨
      pr ∈ (modifiedResNetArch c1 c2 c3 c4).params) :
    pr.2 = true := by
  rcases h with h | h
  · exact archAllTrainable_spec _ (allTrainable_vit l) pr h
  · exact archAllTrainable_spec _ (allTrainable_resnet c1 c2 c3 c4) pr h

/-- Witness for the amended C7 at the `query` parameter. -/
theorem C7_nothing_frozen_witness :
    (("query", true) ∈ (visionTransformerArch 1).params ∨
      ("query", true) ∈ (modifiedResNetArch 1 1 1 1).params) ∧
    (("query", true) : String × Bool).2 = true :=
  have hm : ("query", true) ∈ (visionTransformerArch 1).params ∨
      ("query", true) ∈ (modifiedResNetArch 1 1 1 1).params := Or.inl (by decide)
  ⟨hm, C7_nothing_frozen 1 1 1 1 1 ("query", true) hm⟩

/-! Section: Model of the `state_dict` handled by `build_model` (model_bk.py
lines 532-567).  A state dict is an association list from parameter names
to tensor shapes — `build_model` only reads names and shapes.  The Python
string operations are modelled on character lists so that everything
evaluates. -/

/-- A saved parameter dictionary: keys with their tensor shapes. -/
abbrev StateDict := List (String × List ℕ)

/-- Whether the first list is an initial segment of the second. -/
def leadsWith : List Char → List Char → Bool
  | [], _ => true
  | _ :: _, [] => false
  | a :: as, b :: bs => a == b && leadsWith as bs

/-- Whether `pat` occurs contiguously somewhere in the second list. -/
def charsContain (pat : List Char) : List Char → Bool
  | [] => leadsWith pat []
  | c :: rest => leadsWith pat (c :: rest) || charsContain pat rest

/-- Python `pat in k` for strings (substring containment). -/
def strContains (k pat : String) : Bool := charsContain pat.toList k.toList

/-- Python `k.startswith(pre)`. -/
def strStarts (k pre : String) : Bool := leadsWith pre.toList k.toList

/-- Python `k.endswith(suf)`. -/
def strEnds (k suf : String) : Bool := leadsWith suf.toList.reverse k.toList.reverse

/-- Helper for `splitDot`: accumulate the current piece (reversed). -/
def splitDotAux : List Char → List Char → List String
  | [], acc => [String.mk acc.reverse]
  | c :: rest, acc =>
      if c == '.' then String.mk acc.reverse :: splitDotAux rest []
      else splitDotAux rest (c :: acc)

/-- Python `k.split(".")` (explicit separator, empty pieces kept). -/
def splitDot (s : String) : List String := splitDotAux s.toList []

/-- Python `k in state_dict`. -/
def sdContains (sd : StateDict) (k : String) : Bool :=
  sd.any (fun kv => kv.1 == k)

/-- Python `state_dict[k].shape`; `none` models the `KeyError`. -/
def sdGet (sd : StateDict) (k : String) : Option (List ℕ) :=
  (sd.find? (fun kv => kv.1 == k)).map (fun kv => kv.2)

/-- The integer square root (largest `s` with `s² ≤ n`), by structural
recursion so that it evaluates. -/
def isqrt : ℕ → ℕ
  | 0 => 0
  | n + 1 =>
      if (isqrt n + 1) * (isqrt n + 1) ≤ n + 1 then isqrt n + 1 else isqrt n

/-- Python `round(n ** 0.5)` for a natural `n`: the integer nearest to
`√n` (`√n ≥ s + 1/2` iff `n ≥ s² + s + 1`; a tie is impossible for
integral `n`). -/
def roundSqrt (n : ℕ) : ℕ :=
  if isqrt n * isqrt n + isqrt n < n then isqrt n + 1 else isqrt n

/-- Line 537: the number of keys starting with `"visual."` and ending
with `".attn.in_proj_weight"`. -/
def countVitLayers (sd : StateDict) : ℕ :=
  (sd.filter (fun kv =>
    strStarts kv.1 "visual." && strEnds kv.1 ".attn.in_proj_weight")).length

/-- Line 542, for one stage `b`: the number of distinct block indices
`k.split(".")[2]` among keys starting with `"visual.layer" + b`; `none`
models the `IndexError` on a key with fewer than three components. -/
def stageCount (sd : StateDict) (b : ℕ) : Option ℕ := do
  let idxs ← ((sd.map Prod.fst).filter
      (fun k => strStarts k ("visual.layer" ++ toString b))).mapM
    (fun k => (splitDot k).get? 2)
  some idxs.dedup.length

/-- The inferred `vision_layers` argument of `CLIP`: a 4-tuple selects the
ResNet, an integer the ViT. -/
inductive VisionLayers where
  | vit (layers : ℕ)
  | resnet (l1 l2 l3 l4 : ℕ)
deriving DecidableEq

/-- The hyperparameters `build_model` passes to `CLIP` (lines 552-555). -/
structure BuildResult where
  embed_dim : ℕ
  image_resolution : ℕ
  vision_layers : VisionLayers
  vision_width : ℕ
  vision_patch_size : Option ℕ
deriving DecidableEq

/-- The branch of `build_model` (lines 533-548) that infers the vision
hyperparameters from parameter shapes; the result is
`(vision_layers, vision_width, vision_patch_size, image_resolution)`.
The failed `assert` of line 547 is `none`. -/
def buildCore (sd : StateDict) : Option (VisionLayers × ℕ × Option ℕ × ℕ) :=
  if sdContains sd "visual.proj" then do
    let cw ← sdGet sd "visual.conv1.weight"
    let vision_width ← cw.head?
    let vision_layers := countVitLayers sd
    let vision_patch_size ← cw.getLast?
    let pe ← sdGet sd "visual.positional_embedding"
    let peLen ← pe.head?
    let grid_size := roundSqrt (peLen - 1)
    some (.vit vision_layers, vision_width, some vision_patch_size,
      vision_patch_size * grid_size)
  else do
    let c1 ← stageCount sd 1
    let c2 ← stageCount sd 2
    let c3 ← stageCount sd 3
    let c4 ← stageCount sd 4
    let lw ← sdGet sd "visual.layer1.0.conv1.weight"
    let vision_width ← lw.head?
    let ap ← sdGet sd "visual.attnpool.positional_embedding"
    let apLen ← ap.head?
    let output_width := roundSqrt (apLen - 1)
    if output_width * output_width + 1 = apLen then
      some (.resnet c1 c2 c3 c4, vision_width, none, output_width * 32)
    else none

/-- Model of `build_model` (lines 532-567): infer the hyperparameters, read
`embed_dim` from `text_projection.shape[1]` (line 550, before any
deletion), then delete `input_resolution`, `context_length` and
`vocab_size` (lines 557-559) and every remaining key whose name does not
contain `'visual'` (lines 561-563) from the state dict.  The result pairs
the inferred hyperparameters with the mutated dict. -/
def build_model (sd : StateDict) : Option (BuildResult × StateDict) := do
  let core ← buildCore sd
  let tp ← sdGet sd "text_projection"
  let embed_dim ← tp.get? 1
  let sd1 := sd.filter (fun kv =>
    !(kv.1 == "input_resolution" || kv.1 == "context_length" || kv.1 == "vocab_size"))
  let sd2 := sd1.filter (fun kv => strContains kv.1 "visual")
  some ({ embed_dim := embed_dim, image_resolution := core.2.2.2,
          vision_layers := core.1, vision_width := core.2.1,
          vision_patch_size := core.2.2.1 }, sd2)

/-- C2: for a state dict containing `visual.proj`, `build_model` infers
the ViT hyperparameters purely from parameter shapes — `vision_width`
from `visual.conv1.weight.shape[0]`, `vision_patch_size` from
`visual.conv1.weight.shape[-1]`, `vision_layers` by counting the
`visual.*.attn.in_proj_weight` keys, and `image_resolution` as
`vision_patch_size * round(sqrt(len(visual.positional_embedding) - 1))`;
without that key it infers the ResNet configuration — the per-stage
counts of distinct block indices under `visual.layer1..4`,
`image_resolution = 32 * round(sqrt(len(attnpool pos-emb) - 1))` — and
asserts that the attnpool positional-embedding length is a perfect square
plus one. -/
theorem C2_build_model_inference :
    (∀ (sd : StateDict) (cw pe tp : List ℕ) (w ps pl ed : ℕ),
      sdContains sd "visual.proj" = true →
      sdGet sd "visual.conv1.weight" = some cw →
      cw.head? = some w →
      cw.getLast? = some ps →
      sdGet sd "visual.positional_embedding" = some pe →
      pe.head? = some pl →
      sdGet sd "text_projection" = some tp →
      tp.get? 1 = some ed →
      (build_model sd).map Prod.fst
        = some { embed_dim := ed, image_resolution := ps * roundSqrt (pl - 1),
                 vision_layers := .vit (countVitLayers sd), vision_width := w,
                 vision_patch_size := some ps }) ∧
    (∀ (sd : StateDict) (lw ap tp : List ℕ) (c1 c2 c3 c4 w apl ed : ℕ),
      sdContains sd "visual.proj" = false →
      stageCount sd 1 = some c1 →
      stageCount sd 2 = some c2 →
      stageCount sd 3 = some c3 →
      stageCount sd 4 = some c4 →
      sdGet sd "visual.layer1.0.conv1.weight" = some lw →
      lw.head? = some w →
      sdGet sd "visual.attnpool.positional_embedding" = some ap →
      ap.head? = some apl →
      roundSqrt (apl - 1) * roundSqrt (apl - 1) + 1 = apl →
      sdGet sd "text_projection" = some tp →
      tp.get? 1 = some ed →
      (build_model sd).map Prod.fst
        = some { embed_dim := ed, image_resolution := roundSqrt (apl - 1) * 32,
                 vision_layers := .resnet c1 c2 c3 c4, vision_width := w,
                 vision_patch_size := none }) := by
  constructor
  · intro sd cw pe tp w ps pl ed hvp hcw hw hps hpe hpl htp hed
    rw [List.get?_eq_getElem?] at hed
    simp [build_model, buildCore, hvp, hcw, hw, hps, hpe, hpl, htp, hed]
  · intro sd lw ap tp c1 c2 c3 c4 w apl ed hvp h1 h2 h3 h4 hlw hw hap hapl hassert htp hed
    rw [List.get?_eq_getElem?] at hed
    simp [build_model, buildCore, hvp, h1, h2, h3, h4, hlw, hw, hap, hapl, hassert,
      htp, hed]

/-- A concrete ViT-style state dict. -/
def sdVitW : StateDict :=
  [("visual.proj", [8, 8]),
   ("visual.conv1.weight", [16, 3, 4, 4]),
   ("visual.positional_embedding", [10, 16]),
   ("visual.transformer.resblocks.0.attn.in_proj_weight", [48, 16]),
   ("text_projection", [16, 8])]

/-- A concrete ResNet-style state dict. -/
def sdResW : StateDict :=
  [("visual.layer1.0.conv1.weight", [4, 4, 1, 1]),
   ("visual.layer2.0.conv1.weight", [8, 4, 1, 1]),
   ("visual.layer3.0.conv1.weight", [16, 4, 1, 1]),
   ("visual.layer4.0.conv1.weight", [32, 4, 1, 1]),
   ("visual.attnpool.positional_embedding", [5, 128]),
   ("text_projection", [128, 8])]

/-- Witness for C2, one concrete dict per branch. -/
theorem C2_build_model_inference_witness :
    (sdContains sdVitW "visual.proj" = true ∧
     sdGet sdVitW "visual.conv1.weight" = some [16, 3, 4, 4] ∧
     sdGet sdVitW "visual.positional_embedding" = some [10, 16] ∧
     sdGet sdVitW "text_projection" = some [16, 8]) ∧
    (build_model sdVitW).map Prod.fst
      = some { embed_dim := 8, image_resolution := 4 * roundSqrt (10 - 1),
               vision_layers := .vit (countVitLayers sdVitW), vision_width := 16,
               vision_patch_size := some 4 } ∧
    (sdContains sdResW "visual.proj" = false ∧
     stageCount sdResW 1 = some 1 ∧
     sdGet sdResW "visual.attnpool.positional_embedding" = some [5, 128] ∧
     roundSqrt (5 - 1) * roundSqrt (5 - 1) + 1 = 5) ∧
    (build_model sdResW).map Prod.fst
      = some { embed_dim := 8, image_resolution := roundSqrt (5 - 1) * 32,
               vision_layers := .resnet 1 1 1 1, vision_width := 4,
               vision_patch_size := none } :=
  ⟨⟨by decide, by decide, by decide, by decide⟩,
   C2_build_model_inference.1 sdVitW [16, 3, 4, 4] [10, 16] [16, 8] 16 4 10 8
     (by decide) (by decide) (by decide) (by decide) (by decide) (by decide)
     (by decide) (by decide),
   ⟨by decide, by decide, by decide, by decide⟩,
   C2_build_model_inference.2 sdResW [4, 4, 1, 1] [5, 128] [128, 8] 1 1 1 1 4 5 8
     (by decide) (by decide) (by decide) (by decide) (by decide) (by decide)
     (by decide) (by decide) (by decide) (by decide) (by decide) (by decide)⟩

lemma deleted_keys_no_visual (k : String) (h : strContains k "visual" = true) :
    (k == "input_resolution" || k == "context_length" || k == "vocab_size") = false := by
  rcases Bool.eq_false_or_eq_true
      (k == "input_resolution" || k == "context_length" || k == "vocab_size") with ht | hf
  case inr => exact hf
  case inl =>
    exfalso
    simp only [Bool.or_eq_true, beq_iff_eq] at ht
    rcases ht with (rfl | rfl) | rfl
    · exact absurd h (by decide)
    · exact absurd h (by decide)
    · exact absurd h (by decide)

/-- C9: `build_model` mutates its argument — in the returned dict every
key whose name does not contain `'visual'` (in particular
`text_projection`, `input_resolution`, `context_length`, `vocab_size`)
has been deleted and every key containing `'visual'` is kept — and the
`text_projection` shape was read into `embed_dim` before that deletion. -/
theorem C9_build_model_mutation (sd : StateDict) (res : BuildResult × StateDict)
    (hb : build_model sd = some res) :
    res.2 = sd.filter (fun kv => strContains kv.1 "visual") ∧
    (∀ k, k ∈ res.2.map Prod.fst ↔
      k ∈ sd.map Prod.fst ∧ strContains k "visual" = true) ∧
    (∀ tp, sdGet sd "text_projection" = some tp →
      tp.get? 1 = some res.1.embed_dim) := by
  rw [build_model] at hb
  simp only [bind, Option.bind_eq_some, Option.some.injEq] at hb
  obtain ⟨core, hcore, tp0, htp0, ed0, hed0, hfin⟩ := hb
  subst hfin
  have heq : (sd.filter (fun kv =>
        !(kv.1 == "input_resolution" || kv.1 == "context_length"
          || kv.1 == "vocab_size"))).filter (fun kv => strContains kv.1 "visual")
      = sd.filter (fun kv => strContains kv.1 "visual") := by
    rw [List.filter_filter]
    apply List.filter_congr
    intro kv _
    cases hc : strContains kv.1 "visual"
    · simp
    · simp [deleted_keys_no_visual kv.1 hc]
  refine ⟨heq, ?_, ?_⟩
  · intro k
    rw [heq]
    constructor
    · intro hk
      obtain ⟨kv, hkv, rfl⟩ := List.mem_map.1 hk
      rw [List.mem_filter] at hkv
      exact ⟨List.mem_map.2 ⟨kv, hkv.1, rfl⟩, hkv.2⟩
    · rintro ⟨hk, hc⟩
      obtain ⟨kv, hkv, rfl⟩ := List.mem_map.1 hk
      exact List.mem_map.2 ⟨kv, List.mem_filter.2 ⟨hkv, hc⟩, rfl⟩
  · intro tp htp
    rw [htp0] at htp
    obtain rfl : tp0 = tp := Option.some.inj htp
    exact hed0

/-- The concrete result of `build_model` on `sdVitW`. -/
def buildResW : BuildResult × StateDict :=
  ({ embed_dim := 8, image_resolution := 12, vision_layers := .vit 1,
     vision_width := 16, vision_patch_size := some 4 },
   [("visual.proj", [8, 8]),
    ("visual.conv1.weight", [16, 3, 4, 4]),
    ("visual.positional_embedding", [10, 16]),
    ("visual.transformer.resblocks.0.attn.in_proj_weight", [48, 16])])

/-- Witness for C9 on the concrete ViT dict. -/
theorem C9_build_model_mutation_witness :
    build_model sdVitW = some buildResW ∧
    (buildResW.2 = sdVitW.filter (fun kv => strContains kv.1 "visual") ∧
     (∀ k, k ∈ buildResW.2.map Prod.fst ↔
       k ∈ sdVitW.map Prod.fst ∧ strContains k "visual" = true) ∧
     (∀ tp, sdGet sdVitW "text_projection" = some tp →
       tp.get? 1 = some buildResW.1.embed_dim)) :=
  have hb : build_model sdVitW = some buildResW := by decide
  ⟨hb, C9_build_model_mutation sdVitW buildResW hb⟩

/-! Section: Model of the Python call protocol for `CLIP.forward` (model_bk.py
lines 489-505). -/

/-- The exceptions relevant to `CLIP.forward`. -/
inductive PyError where
  | typeError
  | nameError
deriving DecidableEq

/-- Python binds the supplied positional arguments to the declared
parameters; a count mismatch raises `TypeError` before the body runs. -/
def callBind (params : List String) (nargs : ℕ) : Except PyError Unit :=
  if nargs = params.length then .ok () else .error .typeError

/-- The state of a `CLIP` module: `__init__` (lines 437-468) defines only
the `visual` submodule — no text tower, no `logit_scale` attribute.  Its
visual behaviour is the function `visualForward` (an image and the frame
count `T` to an output). -/
structure CLIPState (Img Out : Type) where
  visualForward : Img → ℕ → Out

/-- Model of `CLIP.encode_image` (lines 489-490):
`self.visual(image.type(self.dtype), T)` — a pure call that returns the
unchanged module state together with the visual output. -/
def CLIPState.encode_image {Img Out : Type} (c : CLIPState Img Out)
    (image : Img) (T : ℕ) : CLIPState Img Out × Out :=
  (c, c.visualForward image T)

/-- The parameters of `encode_image` after `self` (line 489). -/
def encodeImageParams : List String := ["image", "T"]

/-- Model of `CLIP.forward` (lines 492-505): the body first evaluates
`self.encode_image(image)` — one positional argument for the two
parameters of `encode_image`, so Python raises `TypeError`.  Were the
call to succeed, the body would still read the unbound local
`text_features` and the missing attribute `self.logit_scale`, modelled by
the (unreachable) `nameError`. -/
def CLIPState.forward {Img Out : Type} (_c : CLIPState Img Out) (_image : Img) :
    Except PyError (Out × Out) := do
  let _ ← callBind encodeImageParams 1
  .error .nameError

/-- C10: `CLIP.forward` raises on every input — the `encode_image` call
is missing its required positional argument `T` — and never returns a
value, while `encode_image` itself is usable and leaves the module state
unchanged, returning exactly the visual forward pass. -/
theorem C10_forward_raises {Img Out : Type} (c : CLIPState Img Out) (image : Img) :
    CLIPState.forward c image = Except.error PyError.typeError ∧
    ∀ T, (CLIPState.encode_image c image T).1 = c ∧
      (CLIPState.encode_image c image T).2 = c.visualForward image T :=
  ⟨rfl, fun _ => ⟨rfl, rfl⟩⟩

/-- A concrete `CLIP` state. -/
def clipW : CLIPState ℕ ℕ := ⟨fun i T => i + T⟩

/-- Witness for C10 at a concrete state and image. -/
theorem C10_forward_raises_witness :
    CLIPState.forward clipW 5 = Except.error PyError.typeError ∧
    ∀ T, (CLIPState.encode_image clipW 5 T).1 = clipW ∧
      (CLIPState.encode_image clipW 5 T).2 = clipW.visualForward 5 T :=
  C10_forward_raises clipW 5

end ModelBk
